import Mathlib

/-!
Verification development for the ParaDiS utility subset of the OpenDiS
repository (src/core/pydis/util/Util_subset.c).

The C code is shallowly embedded in Lean:

* `real8` (C `double`) is modelled by `ℚ`.  The only operations the code
  performs on `real8` values are field copies, additions, subtractions,
  multiplications, divisions and comparisons, all of which exist on `ℚ`;
  the two numeric library calls the code makes (`sqrt` from libm inside
  `Normalize`/`NormalizeVec`, and `rint` inside `ZImage`) are irrational
  and are therefore passed in as explicit function parameters (record
  `Externs`), so every theorem below holds for every implementation of
  them.
* C pointers that may be NULL are modelled by `Option`; the node tables
  indexed by non-negative integers are modelled by total functions
  `Nat → Option Node_t`.
* `Fatal(...)`, which prints a message and aborts the whole computation,
  is modelled by the `Except.error` branch of an `Except String` result;
  a function that cannot reach `Fatal` keeps its plain return type.
* The external geometric collaborators `FindPreciseGlidePlane` and
  `PickScrewGlidePlane` (declared in headers that are not part of the
  subset) are parameters of `Externs` as well, again quantifying the
  theorems over every possible implementation.
* Diagnostics printed with `printf`/`PrintNode` on non-fatal paths are
  modelled by a `Bool` component of the result (`true` iff a diagnostic
  was emitted).
-/

/-- C `double` (typedef `real8`), modelled by `ℚ` (see module comment). -/
abbrev real8 := ℚ

/-- A C `real8 [3]` vector. -/
abbrev Vec3 := real8 × real8 × real8

/-- `Tag_t`: identity of a node, a (domainID, index) pair of C `int`s. -/
structure Tag_t where
  domainID : Int
  index : Int
deriving DecidableEq

/-- `Node_t` (the fields used by Util_subset.c): own tag, position,
velocity, total force, and the per-arm parallel arrays `nbrTag`,
`burgX/Y/Z`, `nx/ny/nz` (glide-plane normals), `armfx/fy/fz` (per-arm
forces), plus the `flags` bit set.  The C `numNbrs` count is the length
of `nbrTag` (see `Node_t.numNbrs`); well-formed nodes keep all the
parallel arrays at that same length. -/
structure Node_t where
  myTag : Tag_t
  x : real8
  y : real8
  z : real8
  vX : real8
  vY : real8
  vZ : real8
  fX : real8
  fY : real8
  fZ : real8
  nbrTag : List Tag_t
  burgX : List real8
  burgY : List real8
  burgZ : List real8
  nx : List real8
  ny : List real8
  nz : List real8
  armfx : List real8
  armfy : List real8
  armfz : List real8
  flags : Int
deriving DecidableEq

/-- C field `numNbrs`: the number of arms of a node. -/
def Node_t.numNbrs (node : Node_t) : Nat := node.nbrTag.length

/-- `RemoteDomain_t` (fields used here): cached high-water mark
`maxTagIndex` and the cached node table `nodeKeys`. -/
structure RemoteDomain_t where
  maxTagIndex : Int
  nodeKeys : Nat → Option Node_t

/-- Boundary kind of `Param_t` (`Periodic` versus anything else). -/
inductive BoundType_t where
  | Periodic : BoundType_t
  | Free : BoundType_t
deriving DecidableEq

/-- `Param_t` (fields used by `FoldBox`/`PBCPOSITION`/`ZImage`). -/
structure Param_t where
  minSideX : real8
  minSideY : real8
  minSideZ : real8
  maxSideX : real8
  maxSideY : real8
  maxSideZ : real8
  Lx : real8
  Ly : real8
  Lz : real8
  invLx : real8
  invLy : real8
  invLz : real8
  xBoundType : BoundType_t
  yBoundType : BoundType_t
  zBoundType : BoundType_t

/-- `Operate_t`: one operation-log entry, exactly the wire fields
`{type, dom1, idx1, dom2, idx2, dom3, idx3, bx, by, bz, x, y, z,
nx, ny, nz}`.  The C fields `by`/`nx`/`ny`/`nz` are spelled `bY`/`nX`/
`nY`/`nZ` here because `by` is a Lean keyword (the b and n triples are
capitalised uniformly). -/
structure Operate_t where
  type : Int
  dom1 : Int
  idx1 : Int
  dom2 : Int
  idx2 : Int
  dom3 : Int
  idx3 : Int
  bX : real8
  bY : real8
  bZ : real8
  x : real8
  y : real8
  z : real8
  nX : real8
  nY : real8
  nZ : real8
deriving DecidableEq, Inhabited

/-- `Home_t` (the fields used by Util_subset.c). -/
structure Home_t where
  myDomain : Int
  cycle : Int
  param : Param_t
  newNodeKeyPtr : Int
  nodeKeys : Nat → Option Node_t
  remoteDomainKeys : Nat → Option RemoteDomain_t
  opList : List Operate_t
  OpCount : Nat
  OpListLen : Nat

/-- Modelled from the spec: the external collaborators of Util_subset.c
that are declared in headers absent from the subset.  `rint` and `sqrt`
are the libm calls used by `ZImage` and `Normalize`/`NormalizeVec`;
`FindPreciseGlidePlane` derives the precise glide-plane normal from a
Burgers vector and a line direction; `PickScrewGlidePlane` chooses a
default glide plane for a screw segment.  All theorems quantify over an
arbitrary `Externs`, hence hold for every implementation. -/
structure Externs where
  rint : real8 → real8
  sqrt : real8 → real8
  FindPreciseGlidePlane : Vec3 → Vec3 → Vec3
  PickScrewGlidePlane : Vec3 → Vec3

/-- Modelled from the spec: operation-class constant `OPCLASS_SEPARATION`
(the numeric values live in a header outside the subset; only their
distinctness is ever used). -/
def OPCLASS_SEPARATION : Int := 1

/-- Modelled from the spec: operation-class constant `OPCLASS_COLLISION`. -/
def OPCLASS_COLLISION : Int := 2

/-- Modelled from the spec: operation-class constant `OPCLASS_REMESH`. -/
def OPCLASS_REMESH : Int := 3

/-- Modelled from the spec: the force-stale status bit
`NODE_RESET_FORCES` (value from a header outside the subset; any single
bit works). -/
def NODE_RESET_FORCES : Int := 1

/-- Modelled from the spec: operation-type constant `RESET_SEG_FORCES`
(enum value from a header outside the subset). -/
def RESET_SEG_FORCES : Int := 10

/-- Modelled from the spec: operation-type constant
`MARK_FORCES_OBSOLETE` (enum value from a header outside the subset). -/
def MARK_FORCES_OBSOLETE : Int := 11

/-- Modelled from the spec: `OpBlock_Count`, the fixed block size by
which the operation list grows (value from a header outside the subset;
only its positivity matters). -/
def OpBlock_Count : Nat := 2000

/-- The neighbor-list scan shared by `Connected` and `GetArmID`: index
of the first arm of the list whose tag fields equal `t`'s
(`dom == nbrTag[i].domainID && idx == nbrTag[i].index`), if any. -/
def findArmIdx : List Tag_t → Tag_t → Option Nat
  | [], _ => none
  | nb :: rest, t =>
    if nb.domainID = t.domainID ∧ nb.index = t.index then some 0
    else (findArmIdx rest t).map (· + 1)

/-- `Connected(node1, node2, &armID)`: returns the pair (C return value,
value stored through `armID`).  `armID` is initialised to `-1` and set
to the first matching arm index when the nodes are connected. -/
def Connected (node1 node2 : Option Node_t) : Int × Int :=
  match node1, node2 with
  | none, _ => (0, -1)
  | _, none => (0, -1)
  | some n1, some n2 =>
    match findArmIdx n1.nbrTag n2.myTag with
    | some i => (1, (i : Int))
    | none => (0, -1)

/-- `GetArmID(home, node1, node2)`: arm index of `node1` terminating at
`node2`, or `-1` when not connected (or a node pointer is NULL).  The
`home` argument is unused, as in the C source. -/
def GetArmID (home : Home_t) (node1 node2 : Option Node_t) : Int :=
  match node1, node2 with
  | none, _ => -1
  | _, none => -1
  | some n1, some n2 =>
    match findArmIdx n1.nbrTag n2.myTag with
    | some i => (i : Int)
    | none => -1

/-- `DomainOwnsSeg(home, opClass, thisDomain, endTag)`: ownership
arbitration for the segment from `thisDomain` to `endTag`.  `Fatal`
on an unrecognised operation class is the `Except.error` branch.
`home->cycle & 0x01` is `home.cycle % 2 = 1` (`Int.emod` agrees with the
two's-complement low bit for every `int`). -/
def DomainOwnsSeg (home : Home_t) (opClass : Int) (thisDomain : Int)
    (endTag : Tag_t) : Except String Int :=
  if thisDomain = endTag.domainID then .ok 1
  else if opClass = OPCLASS_SEPARATION ∨ opClass = OPCLASS_COLLISION then
    .ok (if home.cycle % 2 = 1
         then (if thisDomain > endTag.domainID then 1 else 0)
         else (if thisDomain < endTag.domainID then 1 else 0))
  else if opClass = OPCLASS_REMESH then
    .ok (if home.cycle % 2 = 1
         then (if thisDomain < endTag.domainID then 1 else 0)
         else (if thisDomain > endTag.domainID then 1 else 0))
  else .error "Invalid opClass in DomainOwnsSeg()"

/-- `GetNodeFromTag(home, tag)`: resolve a tag to a node.  A negative
tag component is `Fatal` (`Except.error`); a missing node is a normal
`.ok none`. -/
def GetNodeFromTag (home : Home_t) (tag : Tag_t) :
    Except String (Option Node_t) :=
  if tag.domainID < 0 ∨ tag.index < 0 then
    .error "GetNodeFromTag: invalid tag"
  else if tag.domainID = home.myDomain then
    if tag.index ≥ home.newNodeKeyPtr then .ok none
    else .ok (home.nodeKeys tag.index.toNat)
  else
    match home.remoteDomainKeys tag.domainID.toNat with
    | none => .ok none
    | some remDom =>
      if tag.index ≥ remDom.maxTagIndex then .ok none
      else .ok (remDom.nodeKeys tag.index.toNat)

/-- The loop of `GetNeighborNode` (the live `#else` branch): `j` starts
at `-1`, is incremented at each slot with a non-negative domainID, and
when `j == n` the current slot's tag is resolved.  Falling off the end
prints a diagnostic and returns NULL; the `Bool` of the result is `true`
iff that diagnostic was printed. -/
def gnnLoop (home : Home_t) : List Tag_t → Int → Int →
    Except String (Option Node_t × Bool)
  | [], _, _ => .ok (none, true)
  | nb :: rest, j, n =>
    let j1 := if nb.domainID ≥ 0 then j + 1 else j
    if j1 = n then (GetNodeFromTag home nb).map (fun r => (r, false))
    else gnnLoop home rest j1 n

/-- `GetNeighborNode(home, node, n)`: the n'th valid neighbor of `node`,
skipping arms whose domainID has been invalidated (the sparse-list
version compiled in the source). -/
def GetNeighborNode (home : Home_t) (node : Node_t) (n : Int) :
    Except String (Option Node_t × Bool) :=
  gnnLoop home node.nbrTag (-1) n

/-- `ExtendOpList(home)`: grow the operation list by `OpBlock_Count`
slots.  `realloc` preserves the existing prefix; the fresh slots are
uninitialised in C and modelled by `default`. -/
def ExtendOpList (home : Home_t) : Home_t :=
  { home with
    opList := home.opList ++ List.replicate OpBlock_Count default,
    OpListLen := home.OpListLen + OpBlock_Count }

/-- `AddOp(home, type, dom1, idx1, dom2, idx2, dom3, idx3, bx, by, bz,
x, y, z, nx, ny, nz)`: append one entry to the operation list, growing
the backing buffer first when it is full. -/
def AddOp (home : Home_t) (type : Int) (dom1 idx1 dom2 idx2 dom3 idx3 : Int)
    (bX bY bZ x y z nX nY nZ : real8) : Home_t :=
  let home1 := if home.OpCount ≥ home.OpListLen then ExtendOpList home else home
  let op : Operate_t :=
    { type := type, dom1 := dom1, idx1 := idx1, dom2 := dom2, idx2 := idx2,
      dom3 := dom3, idx3 := idx3, bX := bX, bY := bY, bZ := bZ,
      x := x, y := y, z := z, nX := nX, nY := nY, nZ := nZ }
  { home1 with
    opList := home1.opList.set home1.OpCount op,
    OpCount := home1.OpCount + 1 }

/-- `ClearOpList(home)`: zero the backing storage and the count;
capacity is retained. -/
def ClearOpList (home : Home_t) : Home_t :=
  { home with
    opList := List.replicate home.OpListLen default,
    OpCount := 0 }

/-- `ResetSegForces(home, nodeA, nodeBtag, fx, fy, fz, globalOp)`:
overwrite the per-arm force of the first arm of `nodeA` terminating at
`nodeBtag`, re-sum the total force over the first `numNbrs` per-arm
forces, set the `NODE_RESET_FORCES` bit, and (when `globalOp` is
nonzero) log a `RESET_SEG_FORCES` entry first.  Returns the updated
(home, nodeA). -/
def ResetSegForces (home : Home_t) (nodeA : Node_t) (nodeBtag : Tag_t)
    (fx fy fz : real8) (globalOp : Int) : Home_t × Node_t :=
  let home1 :=
    if globalOp ≠ 0 then
      AddOp home RESET_SEG_FORCES
        nodeA.myTag.domainID nodeA.myTag.index
        nodeBtag.domainID nodeBtag.index
        (-1) (-1)
        0 0 0
        fx fy fz
        0 0 0
    else home
  let nodeA1 :=
    match findArmIdx nodeA.nbrTag nodeBtag with
    | some i =>
      { nodeA with
        armfx := nodeA.armfx.set i fx,
        armfy := nodeA.armfy.set i fy,
        armfz := nodeA.armfz.set i fz }
    | none => nodeA
  let nodeA2 :=
    { nodeA1 with
      fX := (nodeA1.armfx.take nodeA1.numNbrs).sum,
      fY := (nodeA1.armfy.take nodeA1.numNbrs).sum,
      fZ := (nodeA1.armfz.take nodeA1.numNbrs).sum,
      flags := Int.lor nodeA1.flags NODE_RESET_FORCES }
  (home1, nodeA2)

/-- `MarkNodeForceObsolete(home, node)`: set the stale bit; when the
node is remotely owned, also log a `MARK_FORCES_OBSOLETE` entry. -/
def MarkNodeForceObsolete (home : Home_t) (node : Node_t) : Home_t × Node_t :=
  let node1 := { node with flags := Int.lor node.flags NODE_RESET_FORCES }
  if node.myTag.domainID = home.myDomain then (home, node1)
  else
    (AddOp home MARK_FORCES_OBSOLETE
      node.myTag.domainID node.myTag.index
      (-1) (-1) (-1) (-1)
      0 0 0 0 0 0 0 0 0, node1)

/-- `Normalize(&ax, &ay, &az)`: normalise a vector given by components;
no-op when the squared norm is not positive. -/
def Normalize (E : Externs) (ax ay az : real8) : Vec3 :=
  let a2 := ax * ax + ay * ay + az * az
  if a2 > 0 then
    let a := E.sqrt a2
    (ax / a, ay / a, az / a)
  else (ax, ay, az)

/-- `NormalizeVec(vec)`: normalise a 3-vector in place. -/
def NormalizeVec (E : Externs) (vec : Vec3) : Vec3 :=
  let a2 := vec.1 * vec.1 + vec.2.1 * vec.2.1 + vec.2.2 * vec.2.2
  if a2 > 0 then
    let a := E.sqrt a2
    (vec.1 / a, vec.2.1 / a, vec.2.2 / a)
  else vec

/-- `ZImage(param, &x, &y, &z)`: fold a vector to its minimum periodic
image, per periodic axis. -/
def ZImage (E : Externs) (param : Param_t) (v : Vec3) : Vec3 :=
  let x := if param.xBoundType = BoundType_t.Periodic
           then v.1 - E.rint (v.1 * param.invLx) * param.Lx else v.1
  let y := if param.yBoundType = BoundType_t.Periodic
           then v.2.1 - E.rint (v.2.1 * param.invLy) * param.Ly else v.2.1
  let z := if param.zBoundType = BoundType_t.Periodic
           then v.2.2 - E.rint (v.2.2 * param.invLz) * param.Lz else v.2.2
  (x, y, z)

/-- Modelled from the spec: the `DotProduct` macro from the headers
outside the subset — the Euclidean dot product of two 3-vectors. -/
def DotProduct (a b : Vec3) : real8 :=
  a.1 * b.1 + a.2.1 * b.2.1 + a.2.2 * b.2.2

/-- Write a `real8` array slot at a C `int` index: a negative index (or
one past the end) falls into the out-of-range branch, which leaves the
list unchanged.  (In C such a write is out of bounds; the development
proves the branch unreachable where the code relies on that.) -/
def setI (l : List real8) (i : Int) (v : real8) : List real8 :=
  if 0 ≤ i then l.set i.toNat v else l

/-- The line-direction computation of `RecalcSegGlidePlane`:
`node2 - node1`, folded by `ZImage` and normalised. -/
def segLineDir (E : Externs) (param : Param_t) (n1 n2 : Node_t) : Vec3 :=
  NormalizeVec E (ZImage E param (n2.x - n1.x, n2.y - n1.y, n2.z - n1.z))

/-- The candidate glide plane derived inside `RecalcSegGlidePlane` for
arm `segID` of `n1`: `FindPreciseGlidePlane(burg, lineDir)`. -/
def derivedPlane (E : Externs) (home : Home_t) (n1 n2 : Node_t)
    (segID : Nat) : Vec3 :=
  E.FindPreciseGlidePlane
    (n1.burgX.getD segID 0, n1.burgY.getD segID 0, n1.burgZ.getD segID 0)
    (segLineDir E home.param n1 n2)

/-- `RecalcSegGlidePlane(home, node1, node2, ignoreIfScrew)`: recompute
the glide-plane normal of the segment between the two nodes and write it
symmetrically into both endpoints' matching arm slots.  No-op when a
node pointer is NULL, the two pointers coincide, the nodes are not
connected, or the derived plane is (numerically) zero and
`ignoreIfScrew` is set.  `node2SegID` is used for the symmetric write
without any non-negativity check, exactly as in the C source
(`setI`'s out-of-range branch stands for the C out-of-bounds write). -/
def RecalcSegGlidePlane (E : Externs) (home : Home_t)
    (node1 node2 : Option Node_t) (ignoreIfScrew : Int) :
    Option Node_t × Option Node_t :=
  match node1, node2 with
  | none, _ => (node1, node2)
  | _, none => (node1, node2)
  | some n1, some n2 =>
    if n1 = n2 then (node1, node2)
    else
      match findArmIdx n1.nbrTag n2.myTag with
      | none => (node1, node2)
      | some node1SegID =>
        let node2SegID : Int := GetArmID home node2 node1
        let newPlane := derivedPlane E home n1 n2 node1SegID
        let writeBack : Vec3 → Option Node_t × Option Node_t := fun p0 =>
          let p := Normalize E p0.1 p0.2.1 p0.2.2
          (some { n1 with
                    nx := n1.nx.set node1SegID p.1,
                    ny := n1.ny.set node1SegID p.2.1,
                    nz := n1.nz.set node1SegID p.2.2 },
           some { n2 with
                    nx := setI n2.nx node2SegID p.1,
                    ny := setI n2.ny node2SegID p.2.1,
                    nz := setI n2.nz node2SegID p.2.2 })
        if DotProduct newPlane newPlane < 1 / 1000 then
          if ignoreIfScrew ≠ 0 then (node1, node2)
          else writeBack (E.PickScrewGlidePlane
            (n1.burgX.getD node1SegID 0, n1.burgY.getD node1SegID 0,
             n1.burgZ.getD node1SegID 0))
        else writeBack newPlane

/-! ## Concrete fixtures used by the witnesses -/

/-- A parameter block with free boundaries (the boundary type only
matters to the folding routines, which the witnesses route around). -/
def param0 : Param_t :=
  { minSideX := 0, minSideY := 0, minSideZ := 0,
    maxSideX := 0, maxSideY := 0, maxSideZ := 0,
    Lx := 0, Ly := 0, Lz := 0,
    invLx := 0, invLy := 0, invLz := 0,
    xBoundType := BoundType_t.Free,
    yBoundType := BoundType_t.Free,
    zBoundType := BoundType_t.Free }

/-- An empty home domain (domain 0, cycle 0, empty tables and log). -/
def home0 : Home_t :=
  { myDomain := 0, cycle := 0, param := param0,
    newNodeKeyPtr := 0,
    nodeKeys := fun _ => none,
    remoteDomainKeys := fun _ => none,
    opList := [], OpCount := 0, OpListLen := 0 }

/-- `home0` with a chosen cycle counter. -/
def homeCyc (c : Int) : Home_t := { home0 with cycle := c }


/-- Decidable equality of `Except` results (used to evaluate the model
at concrete inputs). -/
instance instDecEqExcept {ε α : Type} [DecidableEq ε] [DecidableEq α] :
    DecidableEq (Except ε α)
  | .error e1, .error e2 =>
    if h : e1 = e2 then isTrue (h ▸ rfl)
    else isFalse (fun hc => h (Except.error.inj hc))
  | .error _, .ok _ => isFalse (fun hc => Except.noConfusion hc)
  | .ok _, .error _ => isFalse (fun hc => Except.noConfusion hc)
  | .ok a1, .ok a2 =>
    if h : a1 = a2 then isTrue (h ▸ rfl)
    else isFalse (fun hc => h (Except.ok.inj hc))

/-! ## Ownership arbitration (claims C1–C4) -/

/-- Evaluation of `DomainOwnsSeg` for the separation class on a
cross-domain segment. -/
lemma dosSep (home : Home_t) (d : Int) (endTag : Tag_t)
    (hne : d ≠ endTag.domainID) :
    DomainOwnsSeg home OPCLASS_SEPARATION d endTag =
      .ok (if home.cycle % 2 = 1
           then (if d > endTag.domainID then 1 else 0)
           else (if d < endTag.domainID then 1 else 0)) := by
  simp [DomainOwnsSeg, OPCLASS_SEPARATION, OPCLASS_COLLISION, hne]

/-- Evaluation of `DomainOwnsSeg` for the collision class on a
cross-domain segment. -/
lemma dosCol (home : Home_t) (d : Int) (endTag : Tag_t)
    (hne : d ≠ endTag.domainID) :
    DomainOwnsSeg home OPCLASS_COLLISION d endTag =
      .ok (if home.cycle % 2 = 1
           then (if d > endTag.domainID then 1 else 0)
           else (if d < endTag.domainID then 1 else 0)) := by
  simp [DomainOwnsSeg, OPCLASS_SEPARATION, OPCLASS_COLLISION, hne]

/-- Evaluation of `DomainOwnsSeg` for the remesh class on a
cross-domain segment. -/
lemma dosRem (home : Home_t) (d : Int) (endTag : Tag_t)
    (hne : d ≠ endTag.domainID) :
    DomainOwnsSeg home OPCLASS_REMESH d endTag =
      .ok (if home.cycle % 2 = 1
           then (if d < endTag.domainID then 1 else 0)
           else (if d > endTag.domainID then 1 else 0)) := by
  simp [DomainOwnsSeg, OPCLASS_SEPARATION, OPCLASS_COLLISION,
    OPCLASS_REMESH, hne]

/-- C1: for every cycle value, every operation class in
{separation, collision, remesh}, and every pair of distinct domains
`d1 ≠ d2`, exactly one of `DomainOwnsSeg(opClass, d1, ⟨d2,·⟩)` and
`DomainOwnsSeg(opClass, d2, ⟨d1,·⟩)` returns 1 — never both, never
neither (and neither call is fatal). -/
theorem domainOwnsSeg_exactlyOne (home : Home_t) (opClass d1 d2 i1 i2 : Int)
    (hop : opClass = OPCLASS_SEPARATION ∨ opClass = OPCLASS_COLLISION ∨
           opClass = OPCLASS_REMESH)
    (hne : d1 ≠ d2) :
    (DomainOwnsSeg home opClass d1 { domainID := d2, index := i2 } = .ok 1 ∧
     DomainOwnsSeg home opClass d2 { domainID := d1, index := i1 } = .ok 0) ∨
    (DomainOwnsSeg home opClass d1 { domainID := d2, index := i2 } = .ok 0 ∧
     DomainOwnsSeg home opClass d2 { domainID := d1, index := i1 } = .ok 1) := by
  have hne2 : d2 ≠ d1 := hne.symm
  rcases hop with h | h | h <;> subst h <;>
    [rw [dosSep home d1 _ hne, dosSep home d2 _ hne2];
     rw [dosCol home d1 _ hne, dosCol home d2 _ hne2];
     rw [dosRem home d1 _ hne, dosRem home d2 _ hne2]] <;>
    dsimp only <;>
    simp only [Except.ok.injEq] <;>
    split_ifs <;> omega

/-- Witness for C1 at concrete inputs: collision class, domains 0 and 1,
cycle 0. -/
theorem domainOwnsSeg_exactlyOne_witness :
    (DomainOwnsSeg home0 OPCLASS_COLLISION 0 { domainID := 1, index := 0 } = .ok 1 ∧
     DomainOwnsSeg home0 OPCLASS_COLLISION 1 { domainID := 0, index := 0 } = .ok 0) ∨
    (DomainOwnsSeg home0 OPCLASS_COLLISION 0 { domainID := 1, index := 0 } = .ok 0 ∧
     DomainOwnsSeg home0 OPCLASS_COLLISION 1 { domainID := 0, index := 0 } = .ok 1) :=
  domainOwnsSeg_exactlyOne home0 OPCLASS_COLLISION 0 1 0 0
    (Or.inr (Or.inl rfl)) (by decide)

/-- C2: for a cross-domain segment under separation or collision,
`DomainOwnsSeg` returns 1 exactly when `thisDomain` is the
higher-numbered domain on odd cycles and the lower-numbered domain on
even cycles; and the concrete scenario — domains 2 and 5, collision:
domain 2 owns at cycle 4, domain 5 owns at cycle 5; both outcomes invert
under remesh. -/
theorem domainOwnsSeg_parityRule (home : Home_t) (opClass thisDomain : Int)
    (endTag : Tag_t)
    (hop : opClass = OPCLASS_SEPARATION ∨ opClass = OPCLASS_COLLISION)
    (hne : thisDomain ≠ endTag.domainID) :
    (DomainOwnsSeg home opClass thisDomain endTag = .ok 1 ↔
      (if home.cycle % 2 = 1
       then endTag.domainID < thisDomain
       else thisDomain < endTag.domainID)) ∧
    DomainOwnsSeg (homeCyc 4) OPCLASS_COLLISION 2 { domainID := 5, index := 0 } = .ok 1 ∧
    DomainOwnsSeg (homeCyc 5) OPCLASS_COLLISION 5 { domainID := 2, index := 0 } = .ok 1 ∧
    DomainOwnsSeg (homeCyc 4) OPCLASS_REMESH 2 { domainID := 5, index := 0 } = .ok 0 ∧
    DomainOwnsSeg (homeCyc 4) OPCLASS_REMESH 5 { domainID := 2, index := 0 } = .ok 1 ∧
    DomainOwnsSeg (homeCyc 5) OPCLASS_REMESH 5 { domainID := 2, index := 0 } = .ok 0 ∧
    DomainOwnsSeg (homeCyc 5) OPCLASS_REMESH 2 { domainID := 5, index := 0 } = .ok 1 := by
  refine ⟨?_, by decide, by decide, by decide, by decide, by decide, by decide⟩
  rcases hop with h | h <;> subst h <;>
    [rw [dosSep home thisDomain endTag hne];
     rw [dosCol home thisDomain endTag hne]] <;>
    simp only [Except.ok.injEq] <;>
    split_ifs <;> omega

/-- Witness for C2 at concrete inputs: collision, domains 2 and 5,
cycle 4 (even) — the lower-numbered domain owns. -/
theorem domainOwnsSeg_parityRule_witness :
    DomainOwnsSeg (homeCyc 4) OPCLASS_COLLISION 2 { domainID := 5, index := 0 } = .ok 1 :=
  (domainOwnsSeg_parityRule (homeCyc 4) OPCLASS_COLLISION 2
    { domainID := 5, index := 0 } (Or.inr rfl) (by decide)).2.1

/-- Counterexample for C3 as stated: when the two domain numbers
coincide (`d1 = d2 = 2`), `DomainOwnsSeg` takes the same-domain early
return and reports ownership 1 for both the collision and the remesh
class, so remesh is not the negation of collision on every pair. -/
theorem domainOwnsSeg_remeshNeg_cex :
    DomainOwnsSeg home0 OPCLASS_COLLISION 2 { domainID := 2, index := 0 } = .ok 1 ∧
    DomainOwnsSeg home0 OPCLASS_REMESH 2 { domainID := 2, index := 0 } = .ok 1 := by
  constructor <;> rfl

/-- C3 (amended to the cross-domain case): for every pair of *distinct*
domain numbers and every cycle parity, `DomainOwnsSeg` with the remesh
class returns the logical negation of `DomainOwnsSeg` with the collision
class on the identical inputs. -/
theorem domainOwnsSeg_remeshNeg (home : Home_t) (d : Int) (endTag : Tag_t)
    (hne : d ≠ endTag.domainID) :
    (DomainOwnsSeg home OPCLASS_REMESH d endTag = .ok 1 ↔
     DomainOwnsSeg home OPCLASS_COLLISION d endTag = .ok 0) ∧
    (DomainOwnsSeg home OPCLASS_REMESH d endTag = .ok 0 ↔
     DomainOwnsSeg home OPCLASS_COLLISION d endTag = .ok 1) := by
  rw [dosRem home d endTag hne, dosCol home d endTag hne]
  simp only [Except.ok.injEq]
  split_ifs <;> omega

/-- Witness for C3 (amended) at concrete inputs: domains 2 and 5 at an
even cycle — collision gives ownership to 2, remesh denies it. -/
theorem domainOwnsSeg_remeshNeg_witness :
    DomainOwnsSeg (homeCyc 4) OPCLASS_REMESH 2 { domainID := 5, index := 0 } = .ok 0 :=
  (domainOwnsSeg_remeshNeg (homeCyc 4) 2 { domainID := 5, index := 0 }
    (by decide)).2.mpr (by decide)

/-- Counterexample for C4 as stated: with an unrecognised operation
class (99) but both endpoints in the same domain (3), `DomainOwnsSeg`
returns the ownership verdict 1 from the same-domain early return and
never reaches the `Fatal` default branch — so not *every* pair of
domains escalates fatally. -/
theorem domainOwnsSeg_invalid_cex :
    DomainOwnsSeg home0 99 3 { domainID := 3, index := 7 } = .ok 1 := by
  rfl

/-- C4 (amended to cross-domain segments): every invocation of
`DomainOwnsSeg` with an operation class outside
{separation, collision, remesh} and with `thisDomain ≠ endTag.domainID`
escalates fatally, returning the diagnostic error instead of a verdict;
when the two endpoints share a domain, the function returns ownership 1
without examining the operation class. -/
theorem domainOwnsSeg_invalid_fatal (home : Home_t)
    (opClass thisDomain : Int) (endTag : Tag_t)
    (h1 : opClass ≠ OPCLASS_SEPARATION)
    (h2 : opClass ≠ OPCLASS_COLLISION)
    (h3 : opClass ≠ OPCLASS_REMESH)
    (hne : thisDomain ≠ endTag.domainID) :
    DomainOwnsSeg home opClass thisDomain endTag =
      .error "Invalid opClass in DomainOwnsSeg()" := by
  simp [DomainOwnsSeg, hne, h1, h2, h3]

/-- Witness for C4 (amended) at concrete inputs: class 99 on a segment
from domain 0 to domain 1 is fatal. -/
theorem domainOwnsSeg_invalid_fatal_witness :
    DomainOwnsSeg home0 99 0 { domainID := 1, index := 0 } =
      .error "Invalid opClass in DomainOwnsSeg()" :=
  domainOwnsSeg_invalid_fatal home0 99 0 { domainID := 1, index := 0 }
    (by decide) (by decide) (by decide) (by decide)

/-! ## Tag resolution (claim C5) -/

/-- A node with the given tag and no arms (base fixture for witnesses). -/
def baseNode (t : Tag_t) : Node_t :=
  { myTag := t, x := 0, y := 0, z := 0, vX := 0, vY := 0, vZ := 0,
    fX := 0, fY := 0, fZ := 0,
    nbrTag := [], burgX := [], burgY := [], burgZ := [],
    nx := [], ny := [], nz := [],
    armfx := [], armfy := [], armfz := [], flags := 0 }

/-- Local node (0,1) used by the resolution witness. -/
def nodeW : Node_t := baseNode { domainID := 0, index := 1 }

/-- A home domain holding `nodeW` in local slot 1, high-water mark 2. -/
def homeW : Home_t :=
  { home0 with
    newNodeKeyPtr := 2,
    nodeKeys := fun i => if i = 1 then some nodeW else none }

/-- On a tag with non-negative components, `GetNodeFromTag` cannot reach
the `Fatal` branch. -/
lemma getNodeFromTag_ok (home : Home_t) (tag : Tag_t)
    (h : ¬(tag.domainID < 0 ∨ tag.index < 0)) :
    ∃ r, GetNodeFromTag home tag = .ok r := by
  unfold GetNodeFromTag
  rw [if_neg h]
  split
  · split
    · exact ⟨_, rfl⟩
    · exact ⟨_, rfl⟩
  · split
    · exact ⟨_, rfl⟩
    · split
      · exact ⟨_, rfl⟩
      · exact ⟨_, rfl⟩

/-- C5: `GetNodeFromTag` escalates fatally iff the tag has a negative
domainID or index; on any tag with non-negative components it returns
without error (the embedding is a pure function, so no state is
mutated): for a local-domain tag it returns the table slot when the
index is below the high-water mark `newNodeKeyPtr` and NULL otherwise,
and for a remote-domain tag it returns NULL when the remote cache is
absent, the index is at or beyond the cached `maxTagIndex`, or the slot
is empty, and the cached slot otherwise. -/
theorem getNodeFromTag_spec (home : Home_t) (tag : Tag_t) :
    ((∃ msg, GetNodeFromTag home tag = .error msg) ↔
      (tag.domainID < 0 ∨ tag.index < 0)) ∧
    (0 ≤ tag.domainID → 0 ≤ tag.index →
      (tag.domainID = home.myDomain →
        GetNodeFromTag home tag =
          .ok (if tag.index < home.newNodeKeyPtr
               then home.nodeKeys tag.index.toNat else none)) ∧
      (tag.domainID ≠ home.myDomain →
        GetNodeFromTag home tag =
          .ok (match home.remoteDomainKeys tag.domainID.toNat with
               | none => none
               | some remDom =>
                 if tag.index < remDom.maxTagIndex
                 then remDom.nodeKeys tag.index.toNat else none))) := by
  refine ⟨⟨?_, ?_⟩, ?_⟩
  · rintro ⟨msg, hmsg⟩
    by_contra hneg
    obtain ⟨r, hr⟩ := getNodeFromTag_ok home tag hneg
    rw [hr] at hmsg
    exact Except.noConfusion hmsg
  · intro hneg
    exact ⟨_, by unfold GetNodeFromTag; rw [if_pos hneg]⟩
  · intro h1 h2
    have hneg : ¬(tag.domainID < 0 ∨ tag.index < 0) := by omega
    constructor
    · intro hloc
      unfold GetNodeFromTag
      rw [if_neg hneg, if_pos hloc]
      by_cases hidx : tag.index < home.newNodeKeyPtr
      · rw [if_neg (not_le.mpr hidx), if_pos hidx]
      · rw [if_pos (not_lt.mp hidx), if_neg hidx]
    · intro hrem
      unfold GetNodeFromTag
      rw [if_neg hneg, if_neg hrem]
      cases hr : home.remoteDomainKeys tag.domainID.toNat with
      | none => rfl
      | some remDom =>
        dsimp only
        by_cases hidx : tag.index < remDom.maxTagIndex
        · rw [if_neg (not_le.mpr hidx), if_pos hidx]
        · rw [if_pos (not_lt.mp hidx), if_neg hidx]

/-- Witness for C5 at concrete inputs: the local tag (0,1) resolves in
`homeW` to `nodeW`. -/
theorem getNodeFromTag_spec_witness :
    GetNodeFromTag homeW { domainID := 0, index := 1 } = .ok (some nodeW) := by
  have h := ((getNodeFromTag_spec homeW { domainID := 0, index := 1 }).2
    (by decide) (by decide)).1 (by decide)
  rw [h]
  decide

/-! ## Per-arm force reset (claim C6) -/

/-- An arm index found by the neighbor scan is within the arm count. -/
lemma findArmIdx_lt_length {nbrs : List Tag_t} {t : Tag_t} {i : Nat}
    (h : findArmIdx nbrs t = some i) : i < nbrs.length := by
  induction nbrs generalizing i with
  | nil => exact absurd h (by simp [findArmIdx])
  | cons nb rest ih =>
    rw [findArmIdx] at h
    split at h
    · cases h
      simp
    · obtain ⟨k, hk, hki⟩ := Option.map_eq_some'.mp h
      have := ih hk
      simp only [List.length_cons]
      omega

/-- The neighbor scan returns exactly the first matching arm index. -/
lemma findArmIdx_eq_of_first {nbrs : List Tag_t} {t : Tag_t} {i : Nat}
    {nb : Tag_t}
    (hget : nbrs[i]? = some nb)
    (hmatch : nb.domainID = t.domainID ∧ nb.index = t.index)
    (hfirst : ∀ j, j < i → ∀ nb', nbrs[j]? = some nb' →
       ¬(nb'.domainID = t.domainID ∧ nb'.index = t.index)) :
    findArmIdx nbrs t = some i := by
  induction nbrs generalizing i with
  | nil => simp at hget
  | cons hd rest ih =>
    cases i with
    | zero =>
      have hhd : hd = nb := by simpa using hget
      subst hhd
      rw [findArmIdx, if_pos hmatch]
    | succ i' =>
      have hhd : ¬(hd.domainID = t.domainID ∧ hd.index = t.index) :=
        hfirst 0 (Nat.succ_pos _) hd (by simp)
      have hget' : rest[i']? = some nb := by simpa using hget
      have hih := ih hget'
        (fun j hj nb' hj' => hfirst (j + 1) (by omega) nb' (by simpa using hj'))
      rw [findArmIdx, if_neg hhd, hih]
      rfl

/-- C6: after every `ResetSegForces` call (on a node whose per-arm force
arrays match its arm count), the node's total force equals the
componentwise sum of its per-arm forces, the first arm whose neighbor
tag equals `nodeBtag` (when one exists) carries exactly `(fx, fy, fz)`,
and the `NODE_RESET_FORCES` force-stale bit is set. -/
theorem resetSegForces_spec (home : Home_t) (nodeA : Node_t)
    (nodeBtag : Tag_t) (fx fy fz : real8) (globalOp : Int)
    (hx : nodeA.armfx.length = nodeA.nbrTag.length)
    (hy : nodeA.armfy.length = nodeA.nbrTag.length)
    (hz : nodeA.armfz.length = nodeA.nbrTag.length) :
    ((ResetSegForces home nodeA nodeBtag fx fy fz globalOp).2.fX =
       (ResetSegForces home nodeA nodeBtag fx fy fz globalOp).2.armfx.sum) ∧
    ((ResetSegForces home nodeA nodeBtag fx fy fz globalOp).2.fY =
       (ResetSegForces home nodeA nodeBtag fx fy fz globalOp).2.armfy.sum) ∧
    ((ResetSegForces home nodeA nodeBtag fx fy fz globalOp).2.fZ =
       (ResetSegForces home nodeA nodeBtag fx fy fz globalOp).2.armfz.sum) ∧
    (∀ (i : Nat) (nb : Tag_t), nodeA.nbrTag[i]? = some nb →
       (nb.domainID = nodeBtag.domainID ∧ nb.index = nodeBtag.index) →
       (∀ (j : Nat), j < i → ∀ (nb' : Tag_t), nodeA.nbrTag[j]? = some nb' →
          ¬(nb'.domainID = nodeBtag.domainID ∧ nb'.index = nodeBtag.index)) →
       ((ResetSegForces home nodeA nodeBtag fx fy fz globalOp).2.armfx[i]? = some fx ∧
        (ResetSegForces home nodeA nodeBtag fx fy fz globalOp).2.armfy[i]? = some fy ∧
        (ResetSegForces home nodeA nodeBtag fx fy fz globalOp).2.armfz[i]? = some fz)) ∧
    ((ResetSegForces home nodeA nodeBtag fx fy fz globalOp).2.flags =
       Int.lor nodeA.flags NODE_RESET_FORCES) := by
  refine ⟨?_, ?_, ?_, ?_, ?_⟩
  · cases hidx : findArmIdx nodeA.nbrTag nodeBtag with
    | none =>
      simp only [ResetSegForces, hidx, Node_t.numNbrs]
      rw [← hx, List.take_length]
    | some i =>
      simp only [ResetSegForces, hidx, Node_t.numNbrs]
      have hlen : (nodeA.armfx.set i fx).length = nodeA.nbrTag.length := by
        simp [hx]
      rw [← hlen, List.take_length]
  · cases hidx : findArmIdx nodeA.nbrTag nodeBtag with
    | none =>
      simp only [ResetSegForces, hidx, Node_t.numNbrs]
      rw [← hy, List.take_length]
    | some i =>
      simp only [ResetSegForces, hidx, Node_t.numNbrs]
      have hlen : (nodeA.armfy.set i fy).length = nodeA.nbrTag.length := by
        simp [hy]
      rw [← hlen, List.take_length]
  · cases hidx : findArmIdx nodeA.nbrTag nodeBtag with
    | none =>
      simp only [ResetSegForces, hidx, Node_t.numNbrs]
      rw [← hz, List.take_length]
    | some i =>
      simp only [ResetSegForces, hidx, Node_t.numNbrs]
      have hlen : (nodeA.armfz.set i fz).length = nodeA.nbrTag.length := by
        simp [hz]
      rw [← hlen, List.take_length]
  · intro i nb hget hmatch hfirst
    have hfa : findArmIdx nodeA.nbrTag nodeBtag = some i :=
      findArmIdx_eq_of_first hget hmatch hfirst
    have hi : i < nodeA.nbrTag.length := findArmIdx_lt_length hfa
    simp only [ResetSegForces, hfa]
    exact ⟨List.getElem?_set_eq_of_lt fx (hx ▸ hi),
           List.getElem?_set_eq_of_lt fy (hy ▸ hi),
           List.getElem?_set_eq_of_lt fz (hz ▸ hi)⟩
  · cases hidx : findArmIdx nodeA.nbrTag nodeBtag with
    | none => simp only [ResetSegForces, hidx]
    | some i => simp only [ResetSegForces, hidx]

/-- The scenario node of C6: node (0,3) with a single arm to (1,7)
carrying per-arm force (1,2,3). -/
def nodeA0 : Node_t :=
  { baseNode { domainID := 0, index := 3 } with
    nbrTag := [{ domainID := 1, index := 7 }],
    burgX := [1], burgY := [0], burgZ := [0],
    nx := [0], ny := [0], nz := [1],
    armfx := [1], armfy := [2], armfz := [3],
    fX := 1, fY := 2, fZ := 3 }

/-- Witness for C6 at the scenario inputs: resetting the single arm of
`nodeA0` to (4,5,6) yields total force (4,5,6). -/
theorem resetSegForces_witness :
    (ResetSegForces home0 nodeA0 { domainID := 1, index := 7 } 4 5 6 0).2.fX = 4 ∧
    (ResetSegForces home0 nodeA0 { domainID := 1, index := 7 } 4 5 6 0).2.fY = 5 ∧
    (ResetSegForces home0 nodeA0 { domainID := 1, index := 7 } 4 5 6 0).2.fZ = 6 := by
  have h := resetSegForces_spec home0 nodeA0 { domainID := 1, index := 7 }
    4 5 6 0 (by decide) (by decide) (by decide)
  refine ⟨?_, ?_, ?_⟩
  · rw [h.1]
    norm_num [ResetSegForces, findArmIdx, nodeA0, baseNode]
  · rw [h.2.1]
    norm_num [ResetSegForces, findArmIdx, nodeA0, baseNode]
  · rw [h.2.2.1]
    norm_num [ResetSegForces, findArmIdx, nodeA0, baseNode]

/-! ## Operation log (claim C7) -/

/-- The operation-list representation invariant maintained by
`InitOpList`/`AddOp`/`ExtendOpList`: the modelled buffer has exactly
`OpListLen` slots and `OpCount` of them are in use. -/
def OpWF (home : Home_t) : Prop :=
  home.opList.length = home.OpListLen ∧ home.OpCount ≤ home.OpListLen

/-- `AddOp` applied to the fields of an already-built entry (the C call
sites pass the sixteen fields positionally). -/
def AddOpEntry (home : Home_t) (e : Operate_t) : Home_t :=
  AddOp home e.type e.dom1 e.idx1 e.dom2 e.idx2 e.dom3 e.idx3
    e.bX e.bY e.bZ e.x e.y e.z e.nX e.nY e.nZ

/-- A sequence of `AddOp` calls, one per entry, in order. -/
def addOps (home : Home_t) (es : List Operate_t) : Home_t :=
  es.foldl AddOpEntry home

/-- One `AddOp` call preserves the invariant, stores the entry at slot
`OpCount`, bumps the count, and leaves all earlier slots unchanged. -/
lemma addOpEntry_step (home : Home_t) (e : Operate_t) (hwf : OpWF home) :
    OpWF (AddOpEntry home e) ∧
    (AddOpEntry home e).OpCount = home.OpCount + 1 ∧
    (AddOpEntry home e).opList[home.OpCount]? = some e ∧
    (∀ j : Nat, j < home.OpCount →
       (AddOpEntry home e).opList[j]? = home.opList[j]?) := by
  obtain ⟨hlen, hle⟩ := hwf
  have hB : 0 < OpBlock_Count := by norm_num [OpBlock_Count]
  by_cases hfull : home.OpCount ≥ home.OpListLen
  · have hcnt : home.OpCount = home.OpListLen := le_antisymm hle hfull
    have hlen2 : (home.opList ++ List.replicate OpBlock_Count default).length =
        home.OpListLen + OpBlock_Count := by
      simp [hlen]
    simp only [AddOpEntry, AddOp, if_pos hfull, ExtendOpList, OpWF]
    refine ⟨⟨?_, ?_⟩, trivial, ?_, ?_⟩
    · simp [hlen]
    · omega
    · exact List.getElem?_set_eq_of_lt e (by omega)
    · intro j hj
      rw [List.getElem?_set_ne (by omega)]
      exact List.getElem?_append_left (by omega)
  · have hlt : home.OpCount < home.OpListLen := by omega
    simp only [AddOpEntry, AddOp, if_neg hfull, OpWF]
    refine ⟨⟨?_, ?_⟩, trivial, ?_, ?_⟩
    · simp [hlen]
    · omega
    · exact List.getElem?_set_eq_of_lt e (by omega)
    · intro j hj
      rw [List.getElem?_set_ne (by omega)]

/-- C7: starting from any well-formed log state holding `OpCount = k`
entries, appending the entries of `es` via `AddOp` leaves `OpCount` at
`k + es.length`, stores the appended entries field-for-field at slots
`k … k + es.length - 1` in append order, and preserves every previously
stored slot — regardless of how many `ExtendOpList` growth events
occurred along the way. -/
theorem addOp_appendInOrder (home : Home_t) (es : List Operate_t)
    (hwf : OpWF home) :
    (addOps home es).OpCount = home.OpCount + es.length ∧
    (∀ (j : Nat) (hj : j < es.length),
       (addOps home es).opList[home.OpCount + j]? = some (es.get ⟨j, hj⟩)) ∧
    (∀ j : Nat, j < home.OpCount →
       (addOps home es).opList[j]? = home.opList[j]?) := by
  induction es generalizing home with
  | nil =>
    refine ⟨by simp [addOps], ?_, fun j _ => rfl⟩
    intro j hj
    exact absurd hj (by simp)
  | cons e rest ih =>
    obtain ⟨hwf1, hcnt, hget, hpres⟩ := addOpEntry_step home e hwf
    have hrec := ih (AddOpEntry home e) hwf1
    have haddOps : addOps home (e :: rest) = addOps (AddOpEntry home e) rest := rfl
    rw [haddOps]
    refine ⟨?_, ?_, ?_⟩
    · rw [hrec.1, hcnt]
      simp only [List.length_cons]
      omega
    · intro j hj
      cases j with
      | zero =>
        have hpres2 := hrec.2.2 home.OpCount (by omega)
        rw [Nat.add_zero, hpres2, hget]
        rfl
      | succ j1 =>
        have hj1 : j1 < rest.length := by
          simp only [List.length_cons] at hj
          omega
        have hrest := hrec.2.1 j1 hj1
        rw [hcnt] at hrest
        have hidx : home.OpCount + (j1 + 1) = home.OpCount + 1 + j1 := by omega
        rw [hidx, hrest]
        rfl
    · intro j hjlt
      rw [hrec.2.2 j (by omega), hpres j hjlt]

/-- First concrete log entry for the C7 witness. -/
def opA : Operate_t :=
  { type := 1, dom1 := 2, idx1 := 3, dom2 := 4, idx2 := 5, dom3 := 6,
    idx3 := 7, bX := 1, bY := 2, bZ := 3, x := 4, y := 5, z := 6,
    nX := 7, nY := 8, nZ := 9 }

/-- Second concrete log entry for the C7 witness. -/
def opB : Operate_t := { opA with type := 2, x := 10 }

/-- Witness for C7 at concrete inputs: appending `[opA, opB]` to the
fresh log of `home0` (capacity 0, so growth events occur) yields count 2
with the two entries in slots 0 and 1 in order. -/
theorem addOp_appendInOrder_witness :
    (addOps home0 [opA, opB]).OpCount = 2 ∧
    (addOps home0 [opA, opB]).opList[0]? = some opA ∧
    (addOps home0 [opA, opB]).opList[1]? = some opB := by
  have h := addOp_appendInOrder home0 [opA, opB] ⟨rfl, by decide⟩
  refine ⟨?_, ?_, ?_⟩
  · rw [h.1]
    rfl
  · have h0 := h.2.1 0 (by decide)
    simpa [home0] using h0
  · have h1 := h.2.1 1 (by decide)
    simpa [home0] using h1

/-! ## Glide-plane recomputation (claims C8, C10) -/

/-- A concrete collaborator assignment for witnesses: identity
`rint`/`sqrt`, a precise-glide-plane law that returns the zero vector
(a pure screw pair), and an x-axis default screw plane. -/
def E0 : Externs :=
  { rint := fun q => q, sqrt := fun q => q,
    FindPreciseGlidePlane := fun _ _ => (0, 0, 0),
    PickScrewGlidePlane := fun _ => (1, 0, 0) }

/-- The reciprocal endpoint of `nodeA0`: node (1,7) with one arm back
to (0,3). -/
def nodeB0 : Node_t :=
  { baseNode { domainID := 1, index := 7 } with
    nbrTag := [{ domainID := 0, index := 3 }],
    burgX := [-1], burgY := [0], burgZ := [0],
    nx := [0], ny := [0], nz := [1],
    armfx := [0], armfy := [0], armfz := [0] }

/-- C8: `RecalcSegGlidePlane` leaves all node state unchanged whenever a
node pointer is NULL, the two pointers name the same node, or the nodes
are not connected; and whenever the derived glide-plane normal has self
dot-product below the screw threshold (1.0e-03) and `ignoreIfScrew` is
set, both nodes (in particular their stored glide-plane normals) are
returned bit-for-bit unchanged. -/
theorem recalcSegGlidePlane_noop (E : Externs) (home : Home_t)
    (node1 node2 : Option Node_t) (ign : Int) :
    ((node1 = none ∨ node2 = none ∨ node1 = node2 ∨
        (Connected node1 node2).1 = 0) →
      RecalcSegGlidePlane E home node1 node2 ign = (node1, node2)) ∧
    (∀ (n1 n2 : Node_t) (i : Nat), node1 = some n1 → node2 = some n2 →
      findArmIdx n1.nbrTag n2.myTag = some i →
      DotProduct (derivedPlane E home n1 n2 i)
        (derivedPlane E home n1 n2 i) < 1 / 1000 →
      ign ≠ 0 →
      RecalcSegGlidePlane E home node1 node2 ign = (node1, node2)) := by
  constructor
  · intro h
    cases node1 with
    | none => cases node2 <;> rfl
    | some n1 =>
      cases node2 with
      | none => rfl
      | some n2 =>
        rcases h with h | h | h | h
        · exact absurd h (by simp)
        · exact absurd h (by simp)
        · have heq : n1 = n2 := Option.some.inj h
          simp [RecalcSegGlidePlane, heq]
        · by_cases heq : n1 = n2
          · simp [RecalcSegGlidePlane, heq]
          · have hfa : findArmIdx n1.nbrTag n2.myTag = none := by
              by_contra hne
              obtain ⟨i, hi⟩ := Option.ne_none_iff_exists'.mp hne
              simp [Connected, hi] at h
            simp [RecalcSegGlidePlane, heq, hfa]
  · intro n1 n2 i h1 h2 hfa hdot hign
    subst h1
    subst h2
    by_cases heq : n1 = n2
    · simp [RecalcSegGlidePlane, heq]
    · simp only [RecalcSegGlidePlane, if_neg heq, hfa]
      rw [if_pos hdot, if_pos hign]

/-- Witness for C8 at concrete inputs: with the pure-screw collaborator
`E0` (derived plane (0,0,0)) and `ignoreIfScrew = 1`, the connected pair
`nodeA0`—`nodeB0` is returned unchanged. -/
theorem recalcSegGlidePlane_noop_witness :
    RecalcSegGlidePlane E0 home0 (some nodeA0) (some nodeB0) 1 =
      (some nodeA0, some nodeB0) := by
  refine (recalcSegGlidePlane_noop E0 home0 (some nodeA0) (some nodeB0) 1).2
    nodeA0 nodeB0 0 rfl rfl (by decide) ?_ (by decide)
  norm_num [derivedPlane, E0, DotProduct]

/-! ## Sparse neighbor lookup (claim C9) -/

/-- The loop invariant of `GetNeighborNode`: with the running counter at
`j < n`, the loop resolves the `(n - j - 1)`-th remaining valid slot,
or falls off the end with a diagnostic when fewer valid slots remain. -/
lemma gnnLoop_spec (home : Home_t) (tags : List Tag_t) (n j : Int)
    (h : j < n) :
    gnnLoop home tags j n =
      match (tags.filter (fun t => decide (0 ≤ t.domainID)))[(n - j - 1).toNat]? with
      | some t => (GetNodeFromTag home t).map (fun r => (r, false))
      | none => .ok (none, true) := by
  induction tags generalizing j with
  | nil => simp [gnnLoop]
  | cons nb rest ih =>
    rw [gnnLoop]
    by_cases hv : nb.domainID ≥ 0
    · simp only [if_pos hv]
      by_cases hj : j + 1 = n
      · rw [if_pos hj]
        have hidx : (n - j - 1).toNat = 0 := by omega
        simp [List.filter_cons, hv, hidx]
      · rw [if_neg hj]
        have hlt : j + 1 < n := by omega
        rw [ih (j + 1) hlt]
        have hidx : (n - j - 1).toNat = (n - (j + 1) - 1).toNat + 1 := by omega
        simp [List.filter_cons, hv, hidx]
    · simp only [if_neg hv]
      rw [if_neg (by omega : ¬ j = n), ih j h]
      simp [List.filter_cons, hv]

/-- C9: for every node whose neighbor list may contain invalidated
slots (domainID < 0) and every `n ≥ 0`, `GetNeighborNode` skips the
invalid slots and resolves the tag of the n-th valid (0-based) entry —
which need not sit at raw slot n — and when fewer than n+1 valid
entries exist it returns NULL together with the diagnostic. -/
theorem getNeighborNode_spec (home : Home_t) (node : Node_t) (n : Int)
    (hn : 0 ≤ n) :
    (∀ t : Tag_t,
       (node.nbrTag.filter (fun nb => decide (0 ≤ nb.domainID)))[n.toNat]? = some t →
       GetNeighborNode home node n =
         (GetNodeFromTag home t).map (fun r => (r, false))) ∧
    ((node.nbrTag.filter (fun nb => decide (0 ≤ nb.domainID))).length ≤ n.toNat →
       GetNeighborNode home node n = .ok (none, true)) := by
  have h := gnnLoop_spec home node.nbrTag n (-1) (by omega)
  have hidx : (n - (-1) - 1).toNat = n.toNat := by omega
  rw [hidx] at h
  constructor
  · intro t ht
    rw [GetNeighborNode, h, ht]
  · intro hlen
    have hnone : (node.nbrTag.filter (fun nb => decide (0 ≤ nb.domainID)))[n.toNat]? = none :=
      List.getElem?_eq_none hlen
    rw [GetNeighborNode, h, hnone]

/-- A node with a tombstoned first arm (domainID -1) and one valid arm
to (1,7). -/
def nodeH : Node_t :=
  { baseNode { domainID := 0, index := 5 } with
    nbrTag := [{ domainID := -1, index := 0 }, { domainID := 1, index := 7 }] }

/-- Witness for C9 at concrete inputs: on `nodeH`, valid neighbor 0 is
the raw slot 1 (the hole is skipped, and resolving (1,7) in the empty
`home0` legitimately yields NULL without diagnostic), while asking for
valid neighbor 5 falls off the end with the diagnostic. -/
theorem getNeighborNode_spec_witness :
    GetNeighborNode home0 nodeH 0 = .ok (none, false) ∧
    GetNeighborNode home0 nodeH 5 = .ok (none, true) := by
  constructor
  · have h := (getNeighborNode_spec home0 nodeH 0 (by decide)).1
      { domainID := 1, index := 7 } (by decide)
    rw [h]
    decide
  · exact (getNeighborNode_spec home0 nodeH 5 (by decide)).2 (by decide)

/-! ## Arm-index bounds for the symmetric write (claim C10) -/

/-- A tag contained in a neighbor list is found by the scan. -/
lemma findArmIdx_isSome_of_mem {nbrs : List Tag_t} {t : Tag_t}
    (h : t ∈ nbrs) : ∃ i, findArmIdx nbrs t = some i := by
  induction nbrs with
  | nil => simp at h
  | cons nb rest ih =>
    by_cases hm : nb.domainID = t.domainID ∧ nb.index = t.index
    · exact ⟨0, by rw [findArmIdx, if_pos hm]⟩
    · have hmem : t ∈ rest := by
        rcases List.mem_cons.mp h with he | hr
        · exact absurd ⟨by rw [he], by rw [he]⟩ hm
        · exact hr
      obtain ⟨i, hi⟩ := ih hmem
      exact ⟨i + 1, by rw [findArmIdx, if_neg hm, hi]; rfl⟩

/-- C10: under the precondition that `node2` carries a reciprocal arm
whose neighbor tag equals `node1`'s tag, `node2SegID = GetArmID(home,
node2, node1)` is non-negative and strictly below `node2`'s arm count,
so the symmetric glide-plane writes of `RecalcSegGlidePlane` at that
index stay in bounds: the out-of-range branch of the embedded indexing
(`setI`, which the code reaches with no non-negativity check) is never
taken. -/
theorem getArmID_inBounds (home : Home_t) (n1 n2 : Node_t)
    (h : n1.myTag ∈ n2.nbrTag) :
    0 ≤ GetArmID home (some n2) (some n1) ∧
    GetArmID home (some n2) (some n1) < (n2.numNbrs : Int) ∧
    (∀ v : real8, setI n2.nx (GetArmID home (some n2) (some n1)) v =
       n2.nx.set (GetArmID home (some n2) (some n1)).toNat v) := by
  obtain ⟨i, hi⟩ := findArmIdx_isSome_of_mem h
  have hlt := findArmIdx_lt_length hi
  simp only [GetArmID, hi, Node_t.numNbrs]
  refine ⟨Int.natCast_nonneg i, by exact_mod_cast hlt, ?_⟩
  intro v
  rw [setI, if_pos (Int.natCast_nonneg i)]

/-- Witness for C10 at concrete inputs: `nodeB0` carries the reciprocal
arm to `nodeA0`, and the arm index 0 is within its single-arm count. -/
theorem getArmID_inBounds_witness :
    0 ≤ GetArmID home0 (some nodeB0) (some nodeA0) ∧
    GetArmID home0 (some nodeB0) (some nodeA0) < (nodeB0.numNbrs : Int) := by
  have h := getArmID_inBounds home0 nodeA0 nodeB0 (by decide)
  exact ⟨h.1, h.2.1⟩
